import Mathlib

/-!
# Verification of the wiki-bot synchronization and reconciliation core

This file gives a shallow embedding of the pure parts of the program:

* the markdown reconciliation pipeline of `WikiGenerator`
  (`stripFenceWrappers`, `stripLeadingCommentary`, `ensureHeading`,
  `hasMeaningfulBody`, `isMetaDescription`, `ensureSection`,
  `removeSection`, `ensureArchitectureOutline` from `src/wiki-generator.ts`),
* the repository state manager `GitRepositoryManager`
  (`status`, `prepare`, `clone`, `update`, `commit`, `push`, `clean`
  from `src/github/git-repository-manager.ts`), and
* the sidebar ordering of `GitHubWikiWriter`
  (`orderPagesForSidebar`, `writeSidebar`).

JavaScript strings are modelled as `List Char`.  Every string and regex
operation used by the source is re-implemented here by structural
recursion, following the exact ECMAScript semantics of the operation as
it is applied in the source (including the cooked-escape behaviour of
template literals), so that all definitions evaluate inside the kernel.

Effectful git operations are modelled by explicit state passing over a
`GitWorld` describing the observable state of the local checkout and the
outcome of external git invocations; failures are `Except` values.
-/

set_option maxRecDepth 100000
set_option maxHeartbeats 1000000

/-- JavaScript strings, modelled as lists of characters. -/
abbrev Str := List Char

/-- Conversion from Lean string literals to the model representation. -/
def chars (s : String) : Str := s.data

/-- The set matched by the regex class `\s` (and trimmed by
`String.prototype.trim`) restricted to the characters that can occur in
the data handled by the program (ASCII whitespace). -/
def isJsWs (c : Char) : Bool :=
  c == ' ' || c == '\t' || c == '\n' || c == '\r' ||
    c == Char.ofNat 11 || c == Char.ofNat 12

/-- ECMAScript line terminators, the characters never matched by `.`. -/
def isLineTermChar (c : Char) : Bool :=
  c == '\n' || c == '\r' || c == Char.ofNat 8232 || c == Char.ofNat 8233

/-- The regex word characters `[A-Za-z0-9_]`, used for `\b` boundaries. -/
def isWordChar (c : Char) : Bool :=
  (('a' ≤ c && c ≤ 'z') || ('A' ≤ c && c ≤ 'Z') ||
    ('0' ≤ c && c ≤ '9') || c == '_')

/-- `String.prototype.trim`. -/
def jsTrim (cs : Str) : Str :=
  ((cs.dropWhile isJsWs).reverse.dropWhile isJsWs).reverse

/-- `String.prototype.toLowerCase` on the ASCII data of the program. -/
def jsToLower (cs : Str) : Str := cs.map Char.toLower

/-- Does `pat` occur at the head of `cs`? -/
def startsWithStr : Str → Str → Bool
  | [], _ => true
  | _ :: _, [] => false
  | p :: ps, c :: cs => p == c && startsWithStr ps cs

/-- Case-insensitive variant of `startsWithStr` (for regexes with flag i). -/
def ciStartsWithStr : Str → Str → Bool
  | [], _ => true
  | _ :: _, [] => false
  | p :: ps, c :: cs => p.toLower == c.toLower && ciStartsWithStr ps cs

/-- Worker for `indexOfStr`, carrying the current absolute position. -/
def indexOfAux (pat : Str) : Str → Nat → Option Nat
  | [], i => if pat.isEmpty then some i else none
  | c :: cs, i =>
    if startsWithStr pat (c :: cs) then some i else indexOfAux pat cs (i + 1)

/-- `String.prototype.indexOf` (position of the first occurrence). -/
def indexOfStr (pat cs : Str) : Option Nat := indexOfAux pat cs 0

/-- `String.prototype.indexOf` with a start position (second argument). -/
def indexOfStrFrom (pat cs : Str) (start : Nat) : Option Nat :=
  (indexOfAux pat (cs.drop start) 0).map (· + start)

/-- Worker for `lastIndexOfStr`. -/
def lastIndexOfAux (pat : Str) : Str → Nat → Option Nat → Option Nat
  | [], _, acc => acc
  | c :: cs, i, acc =>
    lastIndexOfAux pat cs (i + 1)
      (if startsWithStr pat (c :: cs) then some i else acc)

/-- `String.prototype.lastIndexOf` for a non-empty pattern. -/
def lastIndexOfStr (pat cs : Str) : Option Nat := lastIndexOfAux pat cs 0 none

/-- `String.prototype.slice` with non-negative start and stop. -/
def sliceStr (cs : Str) (start stop : Nat) : Str :=
  (cs.drop start).take (stop - start)

/-- Does `cs` contain `pat`?  Models `String.prototype.includes`. -/
def containsSubstr (cs pat : Str) : Bool := (indexOfStr pat cs).isSome

/-- Worker for `splitOnCharStr`. -/
def splitOnCharAux (sep : Char) : Str → Str → List Str
  | [], acc => [acc.reverse]
  | c :: cs, acc =>
    if c == sep then acc.reverse :: splitOnCharAux sep cs []
    else splitOnCharAux sep cs (c :: acc)

/-- `String.prototype.split` with a single-character separator. -/
def splitOnCharStr (sep : Char) (cs : Str) : List Str := splitOnCharAux sep cs []

/-- Remove one trailing carriage return, if present. -/
def dropTrailingCR (cs : Str) : Str :=
  match cs.reverse with
  | '\r' :: rest => rest.reverse
  | _ => cs

/-- Apply `f` to every element except the last one. -/
def mapExceptLast (f : Str → Str) : List Str → List Str
  | [] => []
  | [x] => [x]
  | x :: y :: rest => f x :: mapExceptLast f (y :: rest)

/-- `String.prototype.split(/\r?\n/)`: split on newline, where each
separator newline may be preceded by one carriage return. -/
def splitLinesJs (cs : Str) : List Str :=
  mapExceptLast dropTrailingCR (splitOnCharStr '\n' cs)

/-- `Array.prototype.join("\n")`. -/
def joinNL : List Str → Str
  | [] => []
  | [x] => x
  | x :: y :: rest => x ++ '\n' :: joinNL (y :: rest)

/-- Worker for `collapseWs`; the flag records whether the previous
character was whitespace (already replaced). -/
def collapseWsAux : Str → Bool → Str
  | [], _ => []
  | c :: cs, inWs =>
    if isJsWs c then
      if inWs then collapseWsAux cs true else ' ' :: collapseWsAux cs true
    else c :: collapseWsAux cs false

/-- `String.prototype.replace(/\s+/g, " ")`. -/
def collapseWs (cs : Str) : Str := collapseWsAux cs false

/-!
## WikiGenerator: reconciliation pipeline (`src/wiki-generator.ts`)
-/

/-- Is the whitespace-skipped head of `xs` a `#`?  This is the body of a
match of `\s*#` starting exactly at `xs`. -/
def wsThenHash (xs : Str) : Bool :=
  match xs.dropWhile isJsWs with
  | '#' :: _ => true
  | [] => false
  | _ :: _ => false

/-- Worker scanning for the `\n`-alternative of `(^|\n)\s*#`. -/
def searchCommentaryAux : Str → Nat → Option Nat
  | [], _ => none
  | c :: cs, i =>
    if c == '\n' && wsThenHash cs then some i
    else searchCommentaryAux cs (i + 1)

/-- `content.search(/(^|\n)\s*#/)`: index of the leftmost match, `none`
for `-1`.  At position 0 the `^` alternative applies; at any later
position the regex must consume a literal newline. -/
def searchCommentary (cs : Str) : Option Nat :=
  if wsThenHash cs then some 0 else searchCommentaryAux cs 0

/-- `WikiGenerator.stripLeadingCommentary`: discard any text preceding
the first heading-marker line (keeping content that already starts at a
heading, since the guard requires a strictly positive match index). -/
def stripLeadingCommentary (content : Str) : Str :=
  match searchCommentary content with
  | some headingIndex =>
    if 0 < headingIndex then
      match indexOfStrFrom (chars "#") content headingIndex with
      | some normalizedHeadingIndex =>
        jsTrim (content.drop normalizedHeadingIndex)
      | none => content
    else content
  | none => content

/-- The regex class `[a-zA-Z0-9+-]` used for fence language tags. -/
def isLangChar (c : Char) : Bool :=
  (('a' ≤ c && c ≤ 'z') || ('A' ≤ c && c ≤ 'Z') ||
    ('0' ≤ c && c ≤ '9') || c == '+' || c == '-')

/-- `WikiGenerator.stripFenceWrappers`: if the entire response is wrapped
in a single fenced block (with an optional language tag on the opening
fence line), keep only the interior; always strip leading commentary. -/
def stripFenceWrappers (content : Str) : Str :=
  let trimmed := jsTrim content
  match indexOfStr (chars "```") trimmed with
  | some 0 =>
    let afterFence := trimmed.drop 3
    let start :=
      match indexOfStr (chars "\n") afterFence with
      | some newlineIndex =>
        let language := jsTrim (afterFence.take newlineIndex)
        if language.all isLangChar then 3 + newlineIndex + 1 else 3
      | none => 3
    match lastIndexOfStr (chars "```") trimmed with
    | some closingFence =>
      if start < closingFence then
        let inner := jsTrim (sliceStr trimmed start closingFence)
        if 0 < inner.length then stripLeadingCommentary inner
        else stripLeadingCommentary trimmed
      else stripLeadingCommentary trimmed
    | none => stripLeadingCommentary trimmed
  | _ => stripLeadingCommentary trimmed

/-- Match of `/^(#+)\s+(.*)$/` against a single line, returning the two
capture groups.  The match succeeds when the line starts with at least
one `#`, followed by at least one whitespace character, and the
remainder (the greedy `(.*)` capture) contains no line terminator. -/
def headingMatchJs (line : Str) : Option (Str × Str) :=
  let hashes := line.takeWhile (fun c => c == '#')
  if hashes.isEmpty then none
  else
    let rest := line.drop hashes.length
    let ws := rest.takeWhile isJsWs
    if ws.isEmpty then none
    else
      let text := rest.drop ws.length
      if text.all (fun c => !(isLineTermChar c)) then some (hashes, text)
      else none

/-- `WikiGenerator.ensureHeading`: guarantee that the content starts with
a level-1 heading whose text is the required title; a first-line heading
already carrying the (normalized) title is kept unchanged, any other
first-line heading is demoted to level 2 below a fresh title heading. -/
def ensureHeading (content title : Str) : Str :=
  let trimmed := jsTrim content
  if trimmed.isEmpty then chars "# " ++ title
  else
    let normalizedTitle := jsToLower (collapseWs (jsTrim title))
    let lines := splitLinesJs trimmed
    let firstLine := jsTrim (lines.headD [])
    match headingMatchJs firstLine with
    | some (_hashes, text) =>
      let normalizedHeading := jsToLower (collapseWs (jsTrim text))
      if normalizedHeading == normalizedTitle then trimmed
      else
        let demoted := chars "## " ++ jsTrim text
        jsTrim (chars "# " ++ title ++ chars "\n\n" ++ joinNL (demoted :: lines.tail))
    | none => chars "# " ++ title ++ chars "\n\n" ++ trimmed

/-- `WikiGenerator.hasMeaningfulBody`: is any line after the title
heading non-blank? -/
def hasMeaningfulBody (content title : Str) : Bool :=
  let trimmed := jsTrim content
  if trimmed.isEmpty then false
  else
    let lines := splitLinesJs trimmed
    if lines.isEmpty then false
    else
      let bodyStart :=
        match headingMatchJs (lines.headD []) with
        | some (_hashes, text) =>
          if jsToLower (jsTrim text) == jsToLower (jsTrim title) then 1 else 0
        | none => 0
      (lines.drop bodyStart).any (fun l => 0 < (jsTrim l).length)

/-- Does a match of the paragraph separator `/\r?\n\s*\r?\n/` start at
this position?  After the first (optionally `\r`-preceded) newline, the
greedy `\s*` and the final `\r?\n` can be matched exactly when the
following whitespace run contains another newline. -/
def sepMatchAt (xs : Str) : Bool :=
  match xs with
  | '\r' :: '\n' :: rest => (rest.takeWhile isJsWs).contains '\n'
  | '\n' :: rest => (rest.takeWhile isJsWs).contains '\n'
  | _ => false

/-- Worker locating the leftmost paragraph separator. -/
def firstParagraphAux : Str → Nat → Option Nat
  | [], _ => none
  | c :: cs, i =>
    if sepMatchAt (c :: cs) then some i else firstParagraphAux cs (i + 1)

/-- `content.split(/\r?\n\s*\r?\n/, 1)[0]`: the text before the first
blank-line separator (the whole text when there is none). -/
def firstParagraph (cs : Str) : Str :=
  match firstParagraphAux cs 0 with
  | some i => cs.take i
  | none => cs

/-- Consume `\s+` (maximal munch); `none` when no whitespace is present.
All continuations in the meta patterns start with a letter, so maximal
munch is equivalent to the backtracking semantics. -/
def wsPlusThen (xs : Str) : Option Str :=
  let run := xs.takeWhile isJsWs
  if run.isEmpty then none else some (xs.drop run.length)

/-- The trailing `.*\b(doc|documentation|wiki)` of the first two meta
patterns, scanning right from the current position: some later position
must carry a word boundary followed by `doc` or `wiki`, with only
non-line-terminator characters in between (`.` never crosses a line).
`prev` is the character just before the current position. -/
def docScanAux : Char → Str → Bool
  | _, [] => false
  | prev, c :: rest =>
    (!(isWordChar prev) &&
      (startsWithStr (chars "doc") (c :: rest) ||
        startsWithStr (chars "wiki") (c :: rest))) ||
    (!(isLineTermChar c) && docScanAux c rest)

/-- `(created|provided|assembled|prepared)\b.*\b(doc|documentation|wiki)`
starting at `xs`.  All four verbs end in the word character `d`, which
is the `prev` character for the scan that follows. -/
def verbThenDocs (xs : Str) : Bool :=
  [chars "created", chars "provided", chars "assembled", chars "prepared"].any
    (fun v =>
      startsWithStr v xs &&
        (match xs.drop v.length with
         | [] => false
         | c :: rest => !(isWordChar c) && docScanAux 'd' (c :: rest)))

/-- Match of meta pattern 1, `/i['’]ve\s+(created|provided|assembled|prepared)\b.*\b(doc|documentation|wiki)/i`,
starting at this position (the input is already lower-cased). -/
def trig1At (xs : Str) : Bool :=
  match xs with
  | 'i' :: q :: 'v' :: 'e' :: rest =>
    (q == Char.ofNat 39 || q == Char.ofNat 8217) &&
      (match wsPlusThen rest with
       | some r1 => verbThenDocs r1
       | none => false)
  | _ => false

/-- Match of meta pattern 2, `/i\s+have\s+(created|provided|assembled|prepared)\b.*\b(doc|documentation|wiki)/i`,
starting at this position. -/
def trig2At (xs : Str) : Bool :=
  match xs with
  | 'i' :: rest =>
    (match wsPlusThen rest with
     | some r1 =>
       startsWithStr (chars "have") r1 &&
         (match wsPlusThen (r1.drop 4) with
          | some r2 => verbThenDocs r2
          | none => false)
     | none => false)
  | _ => false

/-- `(documentation|doc|wiki)\s+(includes|covers|contains)` with the
needed backtracking across the noun alternatives. -/
def nounVerbAt (xs : Str) : Bool :=
  [chars "documentation", chars "doc", chars "wiki"].any
    (fun n =>
      startsWithStr n xs &&
        (match wsPlusThen (xs.drop n.length) with
         | some r =>
           startsWithStr (chars "includes") r ||
             startsWithStr (chars "covers") r ||
             startsWithStr (chars "contains") r
         | none => false))

/-- Match of meta pattern 3, `/this\s+(documentation|doc|wiki)\s+(includes|covers|contains)/i`. -/
def trig3At (xs : Str) : Bool :=
  startsWithStr (chars "this") xs &&
    (match wsPlusThen (xs.drop 4) with
     | some r => nounVerbAt r
     | none => false)

/-- Match of meta pattern 4, `/the\s+(documentation|doc|wiki)\s+(includes|covers|contains)/i`. -/
def trig4At (xs : Str) : Bool :=
  startsWithStr (chars "the") xs &&
    (match wsPlusThen (xs.drop 3) with
     | some r => nounVerbAt r
     | none => false)

/-- `RegExp.prototype.test`: does the pattern match at some position? -/
def existsAtAnyPos (f : Str → Bool) : Str → Bool
  | [] => f []
  | c :: rest => f (c :: rest) || existsAtAnyPos f rest

/-- `WikiGenerator.isMetaDescription`: phrase-pattern heuristics applied
to the (lower-cased) first paragraph. -/
def isMetaDescription (content : Str) : Bool :=
  let trimmed := jsTrim content
  if trimmed.isEmpty then false
  else
    let paragraph := jsToLower (firstParagraph trimmed)
    if paragraph.isEmpty then false
    else
      existsAtAnyPos trig1At paragraph || existsAtAnyPos trig2At paragraph ||
        existsAtAnyPos trig3At paragraph || existsAtAnyPos trig4At paragraph

/-- A match of `##\s+H\b` starting at this position (the `^` of the
`m`-flagged section test, with `H` the literal produced by
`escapeRegExp` from a plain ASCII heading). -/
def sectionHeadAt (h : Str) (xs : Str) : Bool :=
  match xs with
  | '#' :: '#' :: rest =>
    let ws := rest.takeWhile isJsWs
    !ws.isEmpty && startsWithStr h (rest.drop ws.length) &&
      (match (rest.drop ws.length).drop h.length with
       | [] => true
       | c :: _ => !(isWordChar c))
  | _ => false

/-- Worker trying a line-start predicate after every newline. -/
def lineStartScan (f : Str → Bool) : Str → Bool
  | [] => false
  | c :: rest => (c == '\n' && f rest) || lineStartScan f rest

/-- Test of an `m`-flagged `^`-anchored regex: try the position after
every newline and the start of the string. -/
def existsAtLineStart (f : Str → Bool) (cs : Str) : Bool :=
  f cs || lineStartScan f cs

/-- `WikiGenerator.ensureSection`: append a section with the fallback
body unless `/^##\s+heading\b/m` already matches. -/
def ensureSection (content heading fallbackBody : Str) : Str :=
  if existsAtLineStart (sectionHeadAt heading) content then content
  else
    jsTrim content ++ chars "\n\n## " ++ heading ++ chars "\n" ++
      jsTrim fallbackBody ++ chars "\n"

/-- A match of `#\s+Architecture\b` at this position (for the `m`-flagged
heading test of `ensureArchitectureOutline`). -/
def archHeadAt (xs : Str) : Bool :=
  match xs with
  | '#' :: rest =>
    let ws := rest.takeWhile isJsWs
    !ws.isEmpty && startsWithStr (chars "Architecture") (rest.drop ws.length) &&
      (match (rest.drop ws.length).drop 12 with
       | [] => true
       | c :: _ => !(isWordChar c))
  | _ => false

/-!
`WikiGenerator.removeSection` builds its pattern inside an ordinary
(untagged) template literal:
`` `(?:^|\n)##\s+${escapedHeading}\b[\s\S]*?(?=(?:\n##\s+)|$)` ``.
In a template literal the cooked escapes turn `\s` into the letter `s`,
`\b` into the backspace character U+0008 and `\n` into a newline, so the
compiled (case-insensitive) regex is
`(?:^|\n)##s+H<backspace>[sS]*?(?=(?:\n##s+)|$)` — it requires the text
`##` followed by one or more letters `s`, the heading, and a literal
backspace character.  The following definitions implement exactly this
compiled pattern.
-/

/-- Case-insensitive `s` (the denatured `\s` of the cooked pattern). -/
def isSChar (c : Char) : Bool := c.toLower == 's'

/-- Mandatory part `##s+H<backspace>` of the denatured pattern, at this
position; returns the number of characters consumed. -/
def brokenCoreAt (h : Str) (xs : Str) : Option Nat :=
  match xs with
  | '#' :: '#' :: rest =>
    let srun := rest.takeWhile isSChar
    if srun.isEmpty then none
    else
      let afterS := rest.drop srun.length
      if ciStartsWithStr h afterS then
        match afterS.drop h.length with
        | c :: _ =>
          if c == Char.ofNat 8 then some (2 + srun.length + h.length + 1)
          else none
        | [] => none
      else none
  | _ => none

/-- The lookahead `(?=(?:\n##s+)|$)` of the denatured pattern. -/
def brokenLookAt (ys : Str) : Bool :=
  match ys with
  | [] => true
  | '\n' :: '#' :: '#' :: rest => !(rest.takeWhile isSChar).isEmpty
  | _ => false

/-- The lazy `[sS]*?` (only the letters `s`/`S` after cooking!) up to the
first position satisfying the lookahead; `none` when a non-`s` character
blocks the extension. -/
def brokenTail : Str → Option Nat
  | [] => some 0
  | c :: rest =>
    if brokenLookAt (c :: rest) then some 0
    else if isSChar c then (brokenTail rest).map (· + 1)
    else none

/-- Worker scanning the `\n`-alternative positions of the denatured
pattern; returns (start, total length) of the leftmost match. -/
def brokenScan (h : Str) : Str → Nat → Option (Nat × Nat)
  | [], _ => none
  | c :: rest, i =>
    if c == '\n' then
      match brokenCoreAt h rest with
      | some consumed =>
        match brokenTail (rest.drop consumed) with
        | some k => some (i, 1 + consumed + k)
        | none => brokenScan h rest (i + 1)
      | none => brokenScan h rest (i + 1)
    else brokenScan h rest (i + 1)

/-- Leftmost match of the denatured `removeSection` pattern. -/
def brokenSearchFull (h : Str) (cs : Str) : Option (Nat × Nat) :=
  match brokenCoreAt h cs with
  | some consumed =>
    match brokenTail (cs.drop consumed) with
    | some k => some (0, consumed + k)
    | none => brokenScan h cs 0
  | none => brokenScan h cs 0

/-- `WikiGenerator.removeSection` as compiled: replace the first match of
the denatured pattern by a newline, then trim. -/
def removeSection (content heading : Str) : Str :=
  match brokenSearchFull heading content with
  | some (start, len) =>
    jsTrim (content.take start ++ chars "\n" ++ content.drop (start + len))
  | none => jsTrim content

/-- Case-insensitive first occurrence of `pat` (flag `i` searches). -/
def ciIndexOfAux (pat : Str) : Str → Nat → Option Nat
  | [], _ => none
  | c :: cs, i =>
    if ciStartsWithStr pat (c :: cs) then some i else ciIndexOfAux pat cs (i + 1)

/-- Case-insensitive `indexOf` for a non-empty pattern. -/
def ciIndexOf (pat cs : Str) : Option Nat := ciIndexOfAux pat cs 0

/-- Leftmost match span of `/```mermaid[\s\S]*?```/i` (start inclusive,
stop exclusive): lazy interior up to the first closing fence. -/
def findFencedMermaid (cs : Str) : Option (Nat × Nat) :=
  match ciIndexOf (chars "```mermaid") cs with
  | some i =>
    match indexOfStrFrom (chars "```") cs (i + 10) with
    | some e => some (i, e + 3)
    | none => none
  | none => none

/-- Worker for the global replacement of fenced mermaid blocks. -/
def stripFencedMermaidAux : Nat → Str → Str
  | 0, cs => cs
  | fuel + 1, cs =>
    match findFencedMermaid cs with
    | some (i, e) => cs.take i ++ stripFencedMermaidAux fuel (cs.drop e)
    | none => cs

/-- `content.replace(/```mermaid[\s\S]*?```/gi, "")`. -/
def stripFencedMermaidAll (cs : Str) : Str := stripFencedMermaidAux cs.length cs

/-- `graph\s+TD` (case-insensitive) at this position; returns the number
of characters consumed. -/
def graphTDat (xs : Str) : Option Nat :=
  if ciStartsWithStr (chars "graph") xs then
    let r1 := xs.drop 5
    let ws := r1.takeWhile isJsWs
    if ws.isEmpty then none
    else if ciStartsWithStr (chars "td") (r1.drop ws.length) then
      some (5 + ws.length + 2)
    else none
  else none

/-- The lookahead `(?=(?:\n##\s+)|$)` of the stray-diagram pattern. -/
def strayLookAt (ys : Str) : Bool :=
  match ys with
  | [] => true
  | '\n' :: '#' :: '#' :: rest => !(rest.takeWhile isJsWs).isEmpty
  | _ => false

/-- Length of the lazy `[\s\S]*?` up to the first position satisfying the
stray-diagram lookahead (the end of input always satisfies it). -/
def strayTail : Str → Nat
  | [] => 0
  | c :: rest => if strayLookAt (c :: rest) then 0 else strayTail rest + 1

/-- Worker scanning the `\n`-alternative positions of the stray-diagram
pattern `/(^|\n)(graph\s+TD[\s\S]*?)(?=(?:\n##\s+)|$)/i`; returns
(index of the newline, length of capture group 2). -/
def strayScanAux : Str → Nat → Option (Nat × Nat)
  | [], _ => none
  | c :: rest, i =>
    if c == '\n' then
      match graphTDat rest with
      | some consumed => some (i, consumed + strayTail (rest.drop consumed))
      | none => strayScanAux rest (i + 1)
    else strayScanAux rest (i + 1)

/-- Leftmost match of the stray-diagram pattern: (start of the whole
match, whether group 1 consumed a newline, length of group 2). -/
def strayFind (cs : Str) : Option (Nat × Bool × Nat) :=
  match graphTDat cs with
  | some consumed => some (0, false, consumed + strayTail (cs.drop consumed))
  | none => (strayScanAux cs 0).map (fun p => (p.1, true, p.2))

/-- `String.prototype.replace` with a plain string pattern: replace the
first occurrence. -/
def replaceFirstOcc (cs pat rep : Str) : Str :=
  match indexOfStr pat cs with
  | some i => cs.take i ++ rep ++ cs.drop (i + pat.length)
  | none => cs

/-- The constant `DEFAULT_MERMAID_BODY` of `src/wiki-generator.ts`. -/
def defaultMermaidBody : Str :=
  chars "```mermaid\ngraph TD\n    ComponentA[Component A] --> ComponentB[Component B]\n    ComponentB --> ComponentC[Component C]\n```"

/-- `WikiGenerator.ensureArchitectureOutline`: enforce the fixed section
outline, then relocate (or synthesize) a mermaid diagram into a trailing
`## Diagram` section. -/
def ensureArchitectureOutline (content : Str) : Str :=
  let n0 := jsTrim content
  let n1 :=
    if existsAtLineStart archHeadAt n0 then n0
    else chars "# Architecture\n\n" ++ n0
  let n2 := ensureSection n1 (chars "Summary")
    (chars "_TODO: Provide an architectural summary._")
  let n3 := ensureSection n2 (chars "Architectural Pattern")
    (chars "- **Style**: TODO\n- **Key Technologies**: TODO")
  let n4 := ensureSection n3 (chars "Key Directories") (chars "- `src/`: TODO")
  let n5 := ensureSection n4 (chars "Architectural Areas") (chars "- **Area** — TODO")
  let n6 := ensureSection n5 (chars "Component Interactions") (chars "- TODO")
  let n7 := ensureSection n6 (chars "Data Flow") (chars "- TODO")
  let extracted :=
    match findFencedMermaid n7 with
    | some span =>
      (jsTrim (stripFencedMermaidAll n7), some (jsTrim (sliceStr n7 span.1 span.2)))
    | none =>
      match strayFind n7 with
      | some (i, hasNL, g2len) =>
        let pre : Str := if hasNL then chars "\n" else []
        let g2start := i + (if hasNL then 1 else 0)
        let g2 := sliceStr n7 g2start (g2start + g2len)
        (jsTrim (replaceFirstOcc n7 (pre ++ g2) pre),
          some (chars "```mermaid\n" ++ jsTrim g2 ++ chars "\n```"))
      | none => (n7, none)
  let afterRemove := removeSection extracted.1 (chars "Diagram")
  let mermaidBlock := extracted.2.getD defaultMermaidBody
  jsTrim (afterRemove ++ chars "\n\n## Diagram\n\n" ++ mermaidBlock ++ chars "\n")

/-- The per-page normalization pipeline applied to every raw generation:
fence unwrapping and leading-commentary stripping followed by heading
normalization against the required title. -/
def reconcilePage (raw title : Str) : Str :=
  ensureHeading (stripFenceWrappers raw) title

/-- The full reconciliation pipeline for the architecture page, as run by
`WikiGenerator.generateArchitecturalOverview`. -/
def reconcileArchitecture (raw : Str) : Str :=
  ensureArchitectureOutline (reconcilePage raw (chars "Architecture"))

/-- The placeholder page emitted by `generateAreaDocumentation` when no
usable content can be produced. -/
def areaPlaceholder (area : Str) : Str :=
  chars "# " ++ area ++ chars "\n\nUnable to generate documentation for this area."

/-- The guard `existingDoc && existingDoc.trim().length > 0` used before
reusing prior content in the non-meta branches. -/
def usablePrior (existingDoc : Option Str) : Bool :=
  match existingDoc with
  | some p => 0 < (jsTrim p).length
  | none => false

/-- The guard
`existingDoc && existingDoc.trim().length > 0 && !isMetaDescription(existingDoc)`
used before reusing prior content in the meta-detection branches. -/
def usableNonMetaPrior (existingDoc : Option Str) : Bool :=
  match existingDoc with
  | some p => 0 < (jsTrim p).length && !(isMetaDescription p)
  | none => false

/-- The pure decision core of `WikiGenerator.generateAreaDocumentation`
after the raw response has been collected: normalization, meta-commentary
detection with fallback to prior content, meaningful-body validation, and
template rendering (the external `TemplateRenderer.render` is abstracted
by the function argument `render`). -/
def reconcileArea (render : Str → Str) (area raw : Str)
    (existingDoc : Option Str) : Str :=
  let withHeading := reconcilePage raw area
  if isMetaDescription withHeading then
    if usableNonMetaPrior existingDoc then existingDoc.getD []
    else areaPlaceholder area
  else if !(hasMeaningfulBody withHeading area) then
    if usablePrior existingDoc then existingDoc.getD []
    else areaPlaceholder area
  else
    let templated := render withHeading
    if isMetaDescription templated then
      if usableNonMetaPrior existingDoc then existingDoc.getD []
      else areaPlaceholder area
    else if !(hasMeaningfulBody templated area) then
      if usablePrior existingDoc then existingDoc.getD []
      else areaPlaceholder area
    else templated

/-!
## GitRepositoryManager (`src/github/git-repository-manager.ts`)

The manager is modelled by explicit state passing over a `GitWorld`
describing the observable state of the local checkout together with the
outcome of the external git invocations: `porcelain` is the output of
`git status --porcelain`, `headBranch` the trimmed output of
`git rev-parse --abbrev-ref HEAD`, `hasTrackingRef`/`revListStdout`
whether and what `git rev-list --left-right --count origin/B...HEAD`
answers, `commitFailureMsg` the error text of a failing `git commit`
invocation (or `none` when `git commit` succeeds), and `remoteOk`
whether invocations contacting the remote (clone, fetch, push) succeed.
Failures of the manager are `Except.error` values; a mutation of the
checkout happens only through a returned world.
-/

/-- `RepositoryMode` of `git-repository-manager.ts`. -/
inductive RepositoryMode
  | fresh
  | incremental
  | reuseOrClone
deriving DecidableEq, Repr

/-- The constructor options of `GitRepositoryManager`, after the default
values (`branch ?? "master"`, `mode ?? "incremental"`,
`shallow ?? false`) have been applied. -/
structure GitRepositoryManagerOptions where
  remoteUrl : Str
  token : Option Str
  branch : Str
  mode : RepositoryMode
  shallow : Bool
deriving DecidableEq, Repr

/-- Observable state of the local checkout and of the external git
invocations. -/
structure GitWorld where
  repoExists : Bool
  porcelain : Str
  headBranch : Str
  hasTrackingRef : Bool
  revListStdout : Str
  commitFailureMsg : Option Str
  remoteOk : Bool
deriving DecidableEq, Repr

/-- Errors raised by the manager: the `update()` precondition failure
listing the offending porcelain lines, and wrapped external tool
failures. -/
inductive GitError
  | blockedByLocalChanges (paths : List Str)
  | toolFailure (message : Str)
deriving DecidableEq, Repr

/-- The `RepositoryStatus` interface.  The field `existsFlag` models the
source field `exists` (a reserved word in Lean).  `ahead` and `behind`
are `Option Nat` because the array destructuring
`const [behind, ahead] = ...` in `status()` yields `undefined` (modelled
as `none`) for a missing component, although the TypeScript interface
declares both fields as `number`. -/
structure RepositoryStatus where
  existsFlag : Bool
  clean : Bool
  branch : Str
  ahead : Option Nat
  behind : Option Nat
  uncommittedChanges : List Str
deriving DecidableEq, Repr

/-- Worker reading a decimal digit run. -/
def digitsVal : Str → Nat → Nat
  | [], acc => acc
  | c :: cs, acc =>
    if c.isDigit then digitsVal cs (acc * 10 + (c.toNat - 48)) else acc

/-- `parseInt(n, 10) || 0` on the (non-negative) pieces of the rev-list
output: the value of the leading digit run, and `0` when there is none
(`parseInt` returns `NaN` there and `|| 0` replaces it). -/
def jsParseIntOr0 (s : Str) : Nat :=
  let t := s.dropWhile isJsWs
  let run := t.takeWhile Char.isDigit
  if run.isEmpty then 0 else digitsVal run 0

/-- `GitRepositoryManager.status`: degenerate status when the checkout is
absent; otherwise branch, filtered porcelain lines, and the ahead/behind
destructuring of the (allowed-to-fail) rev-list query, whose stdout is
the empty string when the query failed. -/
def statusOf (_o : GitRepositoryManagerOptions) (w : GitWorld) : RepositoryStatus :=
  if w.repoExists = false then
    { existsFlag := false, clean := true, branch := [], ahead := some 0,
      behind := some 0, uncommittedChanges := [] }
  else
    let uncommittedChanges :=
      (splitOnCharStr '\n' (jsTrim w.porcelain)).filter (fun l => 0 < l.length)
    let trackingStdout := if w.hasTrackingRef then w.revListStdout else []
    let nums := (splitOnCharStr '\t' (jsTrim trackingStdout)).map jsParseIntOr0
    { existsFlag := true
      clean := uncommittedChanges.length == 0
      branch := w.headBranch
      ahead := nums[1]?
      behind := nums[0]?
      uncommittedChanges := uncommittedChanges }

/-- Effect of a successful `git clone` (with `--branch` restriction) on
the local checkout: it exists, is clean, sits on the target branch, and
its HEAD coincides with the remote tracking ref. -/
def cloneEffect (o : GitRepositoryManagerOptions) (w : GitWorld) : GitWorld :=
  { w with
    repoExists := true
    porcelain := []
    headBranch := o.branch
    hasTrackingRef := true
    revListStdout := chars "0\t0" }

/-- `GitRepositoryManager.clone`: the invocation contacts the remote and
propagates a (sanitized) failure. -/
def clone (o : GitRepositoryManagerOptions) (w : GitWorld) :
    Except GitError GitWorld :=
  if w.remoteOk then Except.ok (cloneEffect o w)
  else Except.error (GitError.toolFailure (chars "git clone <redacted-url> failed"))

/-- `git fetch origin`: contacts the remote; no observable change to the
local working tree. -/
def gitFetch (w : GitWorld) : Except GitError GitWorld :=
  if w.remoteOk then Except.ok w
  else Except.error (GitError.toolFailure (chars "git fetch origin failed"))

/-- Effect of `git checkout B` on the observable state. -/
def checkoutEffect (b : Str) (w : GitWorld) : GitWorld := { w with headBranch := b }

/-- Effect of the destructive `git reset --hard origin/B`: all
uncommitted changes are discarded. -/
def resetHardEffect (w : GitWorld) : GitWorld := { w with porcelain := [] }

/-- `GitRepositoryManager.update`: refuse when the recomputed status is
not clean; otherwise fetch, switch to the target branch if needed, and
hard-reset onto the remote tracking ref. -/
def update (o : GitRepositoryManagerOptions) (w : GitWorld) :
    Except GitError GitWorld :=
  let status := statusOf o w
  if status.clean = false then
    Except.error (GitError.blockedByLocalChanges status.uncommittedChanges)
  else
    match gitFetch w with
    | Except.error e => Except.error e
    | Except.ok w1 =>
      let w2 := if status.branch != o.branch then checkoutEffect o.branch w1 else w1
      Except.ok (resetHardEffect w2)

/-- `GitRepositoryManager.clean`: remove the checkout when present. -/
def cleanRepo (w : GitWorld) : GitWorld :=
  if w.repoExists then { w with repoExists := false } else w

/-- `GitRepositoryManager.prepare`: dispatch on the configured mode. -/
def prepare (o : GitRepositoryManagerOptions) (w : GitWorld) :
    Except GitError GitWorld :=
  match o.mode with
  | RepositoryMode.fresh =>
    let w1 := if w.repoExists then cleanRepo w else w
    clone o w1
  | RepositoryMode.incremental =>
    if w.repoExists then update o w else clone o w
  | RepositoryMode.reuseOrClone =>
    if w.repoExists then Except.ok w else clone o w

/-- Effect of `git add .`: staging changes which paths are uncommitted —
they keep appearing in the porcelain output (only their markers change,
which the model does not distinguish). -/
def stageAllEffect (w : GitWorld) : GitWorld := w

/-- The error text produced by `runGit` for a failing
`git commit -m <message>` invocation:
`git <args joined> failed: <underlying message>`. -/
def commitWrappedError (message underlying : Str) : Str :=
  chars "git commit -m " ++ message ++ chars " failed: " ++ underlying

/-- The underlying `git commit` invocation: fails exactly when the world
says so, otherwise records a commit, after which the tree is clean. -/
def gitCommitRun (message : Str) (w : GitWorld) : Except Str GitWorld :=
  match w.commitFailureMsg with
  | some m => Except.error (commitWrappedError message m)
  | none => Except.ok { w with porcelain := [] }

/-- `GitRepositoryManager.commit`: no-op returning `false` on a clean
tree; otherwise stage everything and commit, swallowing (as `false`) a
failure whose wrapped message contains `nothing to commit` and
propagating any other failure. -/
def commit (o : GitRepositoryManagerOptions) (message : Str) (w : GitWorld) :
    Except GitError (Bool × GitWorld) :=
  let status := statusOf o w
  if status.clean then Except.ok (false, w)
  else
    let w1 := stageAllEffect w
    match gitCommitRun message w1 with
    | Except.ok w2 => Except.ok (true, w2)
    | Except.error errorMsg =>
      if containsSubstr errorMsg (chars "nothing to commit") then
        Except.ok (false, w1)
      else Except.error (GitError.toolFailure errorMsg)

/-- `GitRepositoryManager.push`: pushes local HEAD to the remote target
branch; the invocation contacts the remote and propagates failures. -/
def push (_o : GitRepositoryManagerOptions) (w : GitWorld) :
    Except GitError GitWorld :=
  if w.remoteOk then Except.ok w
  else Except.error (GitError.toolFailure (chars "git push origin failed"))

/-!
## GitHubWikiWriter (`src/github/github-wiki-writer.ts`)
-/

/-- `GitHubWikiWriter.commitAndPush`: commit, and push only when the
commit reported a change.  The boolean of the result records whether the
`push()` call was invoked. -/
def commitAndPush (o : GitRepositoryManagerOptions) (message : Str)
    (w : GitWorld) : Except GitError GitWorld × Bool :=
  match commit o message w with
  | Except.error e => (Except.error e, false)
  | Except.ok (false, w') => (Except.ok w', false)
  | Except.ok (true, w') => (push o w', true)

/-- `GitHubWikiWriter.orderPagesForSidebar`: first name lower-casing to
`home`, then first name lower-casing to `architecture`, then the
remaining names sorted by `Array.prototype.sort` (a stable sort, modelled
by insertion sort) under the name comparison `r` — the abstract model of
`String.prototype.localeCompare`, whose collation lives outside the
source. -/
def orderPagesForSidebar (r : Str → Str → Prop) [DecidableRel r]
    (names : List Str) : List Str :=
  let hasHome := names.find? (fun n => jsToLower n == chars "home")
  let hasArchitecture := names.find? (fun n => jsToLower n == chars "architecture")
  let rest :=
    ((names.filter
      (fun n => !(some n == hasHome) && !(some n == hasArchitecture))).insertionSort r)
  hasHome.toList ++ hasArchitecture.toList ++ rest

/-- The content written by `GitHubWikiWriter.writeSidebar` for an already
ordered list of page names. -/
def writeSidebarContent (orderedPages : List Str) : Str :=
  joinNL (orderedPages.map (fun name => chars "* [[" ++ name ++ chars "]]")) ++ chars "\n"

/-!
## Concrete instances used by the evaluations and witnesses below
-/

/-- A concrete option record: default branch, incremental mode. -/
def optsMaster : GitRepositoryManagerOptions :=
  { remoteUrl := chars "https://example.com/project.wiki.git"
    token := none
    branch := chars "master"
    mode := RepositoryMode.incremental
    shallow := false }

/-- The same options in `fresh` mode. -/
def optsFresh : GitRepositoryManagerOptions :=
  { optsMaster with mode := RepositoryMode.fresh }

/-- A present, clean checkout on the target branch. -/
def worldClean : GitWorld :=
  { repoExists := true
    porcelain := []
    headBranch := chars "master"
    hasTrackingRef := true
    revListStdout := chars "0\t0"
    commitFailureMsg := none
    remoteOk := true }

/-- A present checkout with two uncommitted changes. -/
def worldDirty : GitWorld :=
  { worldClean with porcelain := chars " M Home.md\n?? New-Page.md" }

/-- An absent checkout. -/
def worldAbsent : GitWorld := { worldClean with repoExists := false }

/-- A present checkout for which the remote tracking ref of the target
branch does not exist yet, so that the rev-list query fails. -/
def worldNoTracking : GitWorld :=
  { worldClean with hasTrackingRef := false, revListStdout := [] }

/-!
## Claims
-/

/-- C1.  For every option record and every repository state in which
`status()` reports `clean = false`, `update()` fails with the
`BlockedByLocalChanges` error listing exactly the offending uncommitted
porcelain lines, and never returns a successor state: in this model every
mutation of the working tree (in particular the destructive hard reset)
happens only through a returned `Except.ok` world, so the checkout is
unchanged and the reset is never executed. -/
theorem update_blocked_by_local_changes (o : GitRepositoryManagerOptions)
    (w : GitWorld) (h : (statusOf o w).clean = false) :
    update o w =
        Except.error (GitError.blockedByLocalChanges
          (statusOf o w).uncommittedChanges) ∧
      ∀ w', update o w ≠ Except.ok w' := by
  have hu : update o w =
      Except.error (GitError.blockedByLocalChanges
        (statusOf o w).uncommittedChanges) := by
    simp [update, h]
  exact ⟨hu, fun w' hw => by rw [hu] at hw; exact Except.noConfusion hw⟩

/-- Witness for C1 at a concrete dirty checkout. -/
theorem update_blocked_by_local_changes_witness :
    (statusOf optsMaster worldDirty).clean = false ∧
      (statusOf optsMaster worldDirty).uncommittedChanges =
        [chars "M Home.md", chars "?? New-Page.md"] ∧
      update optsMaster worldDirty =
        Except.error (GitError.blockedByLocalChanges
          (statusOf optsMaster worldDirty).uncommittedChanges) :=
  ⟨by decide, by decide,
    (update_blocked_by_local_changes optsMaster worldDirty (by decide)).1⟩

/-- C2 (counterexample).  Reconciling the fenced raw generation
```` ```markdown\n## Auth\nBody text\n``` ```` against the title `Auth`
does not produce `# Auth\n\nBody text`: `ensureHeading` keeps a
first-line heading unchanged (at its original level) whenever its
normalized text equals the title. -/
theorem scenario_fence_unwrap_counterexample :
    reconcilePage (chars "```markdown\n## Auth\nBody text\n```") (chars "Auth")
      ≠ chars "# Auth\n\nBody text" := by decide

/-- C2 (amended).  Reconciling the fenced raw generation
```` ```markdown\n## Auth\nBody text\n``` ```` against the title `Auth`
unwraps the fence and, because the normalized heading text `auth` equals
the normalized title, keeps the level-2 heading unchanged, producing
exactly `## Auth\nBody text`. -/
theorem scenario_fence_unwrap_amended :
    reconcilePage (chars "```markdown\n## Auth\nBody text\n```") (chars "Auth")
      = chars "## Auth\nBody text" := by decide

/-- C3.  The full architecture reconciliation pipeline (fence unwrap,
commentary strip, heading normalization, outline and diagram
enforcement) is not idempotent: re-applying it to its own output on the
raw generation `x` appends a second `## Diagram` section, because
`removeSection` builds its regex in a template literal whose cooked
escapes denature `\s` and `\b`, so the emptied diagram section of the
first pass is never removed by the second pass. -/
theorem architecture_pipeline_not_idempotent :
    reconcileArchitecture (reconcileArchitecture (chars "x"))
      ≠ reconcileArchitecture (chars "x") := by decide

/-- C4.  When the checkout exists but the remote tracking ref of the
target branch does not (the rev-list query fails and, being allowed to
fail, yields an empty stdout), `status()` does not fail, but the
destructuring `const [behind, ahead] = ...` of the single-element array
`[0]` produced by the empty stdout yields `behind = 0` and
`ahead = undefined` (modelled as `none`) — not `ahead = 0` as the
claimed 0/0 report (and the declared `number` type of the field)
requires. -/
theorem status_no_tracking_ref_eval :
    statusOf optsMaster worldNoTracking =
      { existsFlag := true
        clean := true
        branch := chars "master"
        ahead := none
        behind := some 0
        uncommittedChanges := [] } := by decide

/-- A successful clone leaves the checkout present. -/
theorem clone_ok_exists (o : GitRepositoryManagerOptions) (w w' : GitWorld)
    (h : clone o w = Except.ok w') : w'.repoExists = true := by
  by_cases hr : w.remoteOk
  · simp [clone, hr] at h
    rw [← h]
    rfl
  · simp [clone, hr] at h

/-- A successful update does not create or delete the checkout. -/
theorem update_ok_exists (o : GitRepositoryManagerOptions) (w w' : GitWorld)
    (h : update o w = Except.ok w') : w'.repoExists = w.repoExists := by
  unfold update at h
  by_cases hc : (statusOf o w).clean = false
  · simp [hc] at h
  · simp [hc] at h
    by_cases hr : w.remoteOk
    · simp [gitFetch, hr] at h
      rw [← h]
      by_cases hb : (statusOf o w).branch = o.branch <;>
        simp [hb, resetHardEffect, checkoutEffect]
    · simp [gitFetch, hr] at h

/-- C5.  Whenever `prepare()` returns successfully the local checkout
exists afterwards; moreover `fresh` deletes any existing checkout and
then clones (`cleanRepo w` equals `w` when the checkout is absent),
`incremental` updates when present and clones otherwise, and
`reuse-or-clone` clones exactly when the checkout is absent and
otherwise returns the state untouched. -/
theorem prepare_ensures_checkout (o : GitRepositoryManagerOptions)
    (w : GitWorld) :
    (∀ w', prepare o w = Except.ok w' → w'.repoExists = true) ∧
      (o.mode = RepositoryMode.fresh →
        prepare o w = clone o (cleanRepo w) ∧ (cleanRepo w).repoExists = false) ∧
      (o.mode = RepositoryMode.incremental →
        prepare o w = if w.repoExists then update o w else clone o w) ∧
      (o.mode = RepositoryMode.reuseOrClone →
        prepare o w = if w.repoExists then Except.ok w else clone o w) := by
  obtain ⟨ru, tk, br, mode, sh⟩ := o
  have hclean : (if w.repoExists then cleanRepo w else w) = cleanRepo w := by
    by_cases he : w.repoExists <;> simp [cleanRepo, he]
  refine ⟨?_, ?_, ?_, ?_⟩
  · intro w' h
    cases mode with
    | fresh =>
      simp only [prepare] at h
      rw [hclean] at h
      exact clone_ok_exists _ _ _ h
    | incremental =>
      simp only [prepare] at h
      by_cases he : w.repoExists
      · rw [if_pos he] at h
        rw [update_ok_exists _ _ _ h, he]
      · rw [if_neg he] at h
        exact clone_ok_exists _ _ _ h
    | reuseOrClone =>
      simp only [prepare] at h
      by_cases he : w.repoExists
      · rw [if_pos he] at h
        cases h
        exact he
      · rw [if_neg he] at h
        exact clone_ok_exists _ _ _ h
  · intro hm
    replace hm : mode = RepositoryMode.fresh := hm
    subst hm
    refine ⟨?_, ?_⟩
    · simp only [prepare]
      rw [hclean]
    · by_cases he : w.repoExists <;> simp [cleanRepo, he]
  · intro hm
    replace hm : mode = RepositoryMode.incremental := hm
    subst hm
    simp only [prepare]
  · intro hm
    replace hm : mode = RepositoryMode.reuseOrClone := hm
    subst hm
    simp only [prepare]

/-- Witness for C5: in `fresh` mode on an absent checkout, `prepare`
succeeds and the resulting checkout exists. -/
theorem prepare_ensures_checkout_witness :
    prepare optsFresh worldAbsent = Except.ok (cloneEffect optsFresh worldAbsent) ∧
      (cloneEffect optsFresh worldAbsent).repoExists = true :=
  ⟨rfl,
    (prepare_ensures_checkout optsFresh worldAbsent).1
      (cloneEffect optsFresh worldAbsent) rfl⟩

/-- An empty porcelain output always yields a clean status. -/
theorem statusOf_clean_of_porcelain_empty (o : GitRepositoryManagerOptions)
    (w : GitWorld) (h : w.porcelain = []) : (statusOf o w).clean = true := by
  unfold statusOf
  split
  · rfl
  · rw [h]
    rfl

/-- C6 (amended).  `commit(message)` returns `false` and leaves the state
unchanged on a clean tree; a second call with no intervening change
always returns `false`; when the underlying `git commit` fails, the
failure is swallowed (returning `false`) exactly when the wrapped error
text `git commit -m <message> failed: <underlying>` contains the phrase
`nothing to commit` — which covers the benign race, but also any failure
whose command text (including the caller-chosen commit message) happens
to contain the phrase — and propagates otherwise; on a dirty tree with a
succeeding `git commit` it returns `true` and the tree becomes clean. -/
theorem commit_spec_amended (o : GitRepositoryManagerOptions)
    (message : Str) (w : GitWorld) :
    ((statusOf o w).clean = true → commit o message w = Except.ok (false, w)) ∧
      (∀ b w', commit o message w = Except.ok (b, w') →
        commit o message w' = Except.ok (false, w')) ∧
      (∀ m, (statusOf o w).clean = false → w.commitFailureMsg = some m →
        (containsSubstr (commitWrappedError message m)
            (chars "nothing to commit") = true →
          commit o message w = Except.ok (false, w)) ∧
        (containsSubstr (commitWrappedError message m)
            (chars "nothing to commit") = false →
          commit o message w =
            Except.error (GitError.toolFailure (commitWrappedError message m)))) ∧
      ((statusOf o w).clean = false → w.commitFailureMsg = none →
        commit o message w = Except.ok (true, { w with porcelain := [] })) := by
  refine ⟨?_, ?_, ?_, ?_⟩
  · intro hc
    simp [commit, hc]
  · intro b w' h
    by_cases hc : (statusOf o w).clean
    · simp [commit, hc] at h
      rcases h with ⟨hb, hw⟩
      rw [← hw]
      simp [commit, hc]
    · cases hm : w.commitFailureMsg with
      | none =>
        simp [commit, hc, stageAllEffect, gitCommitRun, hm] at h
        rcases h with ⟨hb, hw⟩
        rw [← hw]
        simp [commit, statusOf_clean_of_porcelain_empty]
      | some m =>
        simp [commit, hc, stageAllEffect, gitCommitRun, hm] at h
        by_cases hct : containsSubstr (commitWrappedError message m)
            (chars "nothing to commit")
        · simp [hct] at h
          rcases h with ⟨hb, hw⟩
          rw [← hw]
          simp [commit, hc, stageAllEffect, gitCommitRun, hm, hct]
        · simp [hct] at h
  · intro m hc hm
    constructor
    · intro hct
      simp [commit, hc, stageAllEffect, gitCommitRun, hm, hct]
    · intro hct
      simp [commit, hc, stageAllEffect, gitCommitRun, hm, hct]
  · intro hc hm
    simp [commit, hc, stageAllEffect, gitCommitRun, hm]

/-- Witness for C6: on a concrete dirty tree a first `commit` records a
commit and returns `true`, and a second `commit` with no intervening
change returns `false`. -/
theorem commit_spec_amended_witness :
    commit optsMaster (chars "Update wiki documentation") worldDirty =
        Except.ok (true, { worldDirty with porcelain := [] }) ∧
      commit optsMaster (chars "Update wiki documentation")
          { worldDirty with porcelain := [] } =
        Except.ok (false, { worldDirty with porcelain := [] }) := by
  have h4 :=
    (commit_spec_amended optsMaster (chars "Update wiki documentation")
      worldDirty).2.2.2 (by decide) (by decide)
  exact ⟨h4,
    (commit_spec_amended optsMaster (chars "Update wiki documentation")
      worldDirty).2.1 true { worldDirty with porcelain := [] } h4⟩

/-- A dirty checkout whose underlying `git commit` fails with an error
unrelated to the `nothing to commit` race. -/
def worldDirtyOtherFailure : GitWorld :=
  { worldDirty with
    commitFailureMsg := some (chars "fatal: unable to write new index file") }

/-- C6 (counterexample).  With the commit message
`nothing to commit yet`, an underlying `git commit` failure whose own
text (`fatal: unable to write new index file`) has nothing to do with
the benign race is nevertheless swallowed and reported as `false`,
because the phrase check runs against the wrapped message, which embeds
the commit command text and therefore the message: the claim that any
failure other than a benign `nothing to commit` failure propagates is
false. -/
theorem commit_swallow_counterexample :
    containsSubstr (chars "fatal: unable to write new index file")
        (chars "nothing to commit") = false ∧
      containsSubstr
        (commitWrappedError (chars "nothing to commit yet")
          (chars "fatal: unable to write new index file"))
        (chars "nothing to commit") = true ∧
      commit optsMaster (chars "nothing to commit yet") worldDirtyOtherFailure =
        Except.ok (false, worldDirtyOtherFailure) :=
  ⟨by decide, by decide, rfl⟩

/-- C9.  In `commitAndPush`, `push()` is invoked exactly when `commit()`
reported a real change: the boolean of the result records whether
`push()` was called, it is `true` precisely when `commit()` returned
`true`, and when `commit()` returns `false` the flow stops with the
commit state and no push. -/
theorem commit_push_gating (o : GitRepositoryManagerOptions) (message : Str)
    (w : GitWorld) :
    ((commitAndPush o message w).2 = true ↔
        ∃ w', commit o message w = Except.ok (true, w')) ∧
      (∀ w', commit o message w = Except.ok (false, w') →
        commitAndPush o message w = (Except.ok w', false)) := by
  constructor
  · cases h : commit o message w with
    | error e => simp [commitAndPush, h]
    | ok p =>
      cases p with
      | mk b w' => cases b <;> simp [commitAndPush, h]
  · intro w' h
    simp [commitAndPush, h]

/-- Witness for C9: on a concrete clean checkout `commit` reports no
change and `commitAndPush` stops without pushing. -/
theorem commit_push_gating_witness :
    commitAndPush optsMaster (chars "Update wiki documentation") worldClean =
      (Except.ok worldClean, false) :=
  (commit_push_gating optsMaster (chars "Update wiki documentation")
    worldClean).2 worldClean rfl

/-- C8.  When the normalized fresh generation for an area trips the
meta-commentary detection, reconciliation returns the prior content
verbatim whenever it is present, non-empty after trimming, and itself
non-meta (the `FallbackToExisting` outcome), and returns the minimal
placeholder page stating that generation failed whenever no such usable
prior content exists (the `Rejected` outcome) — for every template
renderer, since the decision is taken before templating. -/
theorem area_meta_fallback (render : Str → Str) (area raw : Str)
    (existingDoc : Option Str)
    (h : isMetaDescription (reconcilePage raw area) = true) :
    (∀ p, existingDoc = some p → 0 < (jsTrim p).length →
      isMetaDescription p = false →
      reconcileArea render area raw existingDoc = p) ∧
      (usableNonMetaPrior existingDoc = false →
        reconcileArea render area raw existingDoc = areaPlaceholder area) := by
  constructor
  · intro p hp hlen hmeta
    subst hp
    simp [reconcileArea, h, usableNonMetaPrior, hlen, hmeta]
  · intro hu
    simp [reconcileArea, h, hu]

/-- A raw generation whose normalization trips the meta detector. -/
def metaRaw : Str := chars "# Auth\nThis documentation covers the module."

/-- A usable non-meta prior page for the same area. -/
def priorAuth : Str := chars "# Auth\n\nReal content."

/-- Witness for C8 at a concrete meta-tripping generation, with the
identity template renderer. -/
theorem area_meta_fallback_witness :
    isMetaDescription (reconcilePage metaRaw (chars "Auth")) = true ∧
      reconcileArea (fun c => c) (chars "Auth") metaRaw (some priorAuth) =
        priorAuth ∧
      reconcileArea (fun c => c) (chars "Auth") metaRaw none =
        areaPlaceholder (chars "Auth") := by
  refine ⟨by decide, ?_, ?_⟩
  · exact (area_meta_fallback (fun c => c) (chars "Auth") metaRaw
      (some priorAuth) (by decide)).1 priorAuth rfl (by decide) (by decide)
  · exact (area_meta_fallback (fun c => c) (chars "Auth") metaRaw
      none (by decide)).2 (by decide)

/-- The lookup `names.find(n => n.toLowerCase() === "home")`. -/
def findHomeName (names : List Str) : Option Str :=
  names.find? (fun n => jsToLower n == chars "home")

/-- The lookup `names.find(n => n.toLowerCase() === "architecture")`. -/
def findArchName (names : List Str) : Option Str :=
  names.find? (fun n => jsToLower n == chars "architecture")

/-- The remaining names `names.filter(n => n !== hasHome && n !== hasArchitecture)`. -/
def restNames (names : List Str) : List Str :=
  names.filter
    (fun n => !(some n == findHomeName names) && !(some n == findArchName names))

/-- C7.  For every page-name list, the sidebar order is: the canonical
Home page first (when present), the canonical Architecture page second
(when present), then all remaining page names sorted (stably) by the
name comparison `r` used as sort comparator; the sorted tail is indeed
`Sorted` under `r`; and in particular, for pages named `Zebra`, `Home`,
`Architecture` the order is Home, Architecture, Zebra, written to the
navigation file as `* [[Home]]`, `* [[Architecture]]`, `* [[Zebra]]`. -/
theorem sidebar_ordering (r : Str → Str → Prop) [DecidableRel r]
    [IsTotal Str r] [IsTrans Str r] (names : List Str) :
    orderPagesForSidebar r names =
        (findHomeName names).toList ++ (findArchName names).toList ++
          List.insertionSort r (restNames names) ∧
      List.Sorted r (List.insertionSort r (restNames names)) ∧
      orderPagesForSidebar r [chars "Zebra", chars "Home", chars "Architecture"] =
        [chars "Home", chars "Architecture", chars "Zebra"] ∧
      writeSidebarContent [chars "Home", chars "Architecture", chars "Zebra"] =
        chars "* [[Home]]\n* [[Architecture]]\n* [[Zebra]]\n" :=
  ⟨rfl, List.sorted_insertionSort r (restNames names), rfl, rfl⟩

/-- A trivial total transitive name comparison, used to instantiate the
abstract collation in witnesses. -/
def trivialRel : Str → Str → Prop := fun _ _ => True

instance : DecidableRel trivialRel := fun _ _ => Decidable.isTrue trivial

instance : IsTotal Str trivialRel := ⟨fun _ _ => Or.inl trivial⟩

instance : IsTrans Str trivialRel := ⟨fun _ _ _ _ _ => trivial⟩

/-- Witness for C7 at the concrete scenario page set. -/
theorem sidebar_ordering_witness :
    orderPagesForSidebar trivialRel
        [chars "Zebra", chars "Home", chars "Architecture"] =
      [chars "Home", chars "Architecture", chars "Zebra"] :=
  (sidebar_ordering trivialRel
    [chars "Zebra", chars "Home", chars "Architecture"]).2.2.1

/-- `l` is a permutation of `a :: l.erase a` when `a ∈ l`, for the `BEq`
instance used throughout this file. -/
theorem perm_cons_erase_beq {a : Str} : ∀ {l : List Str}, a ∈ l → l.Perm (a :: l.erase a)
  | b :: t, h => by
    cases h with
    | head => simp [List.erase_cons_head]
    | tail _ hmem =>
      by_cases hba : b == a
      · rw [eq_of_beq hba, List.erase_cons_head]
      · rw [List.erase_cons_tail hba]
        exact ((perm_cons_erase_beq hmem).cons b).trans (List.Perm.swap a b _)

/-- C10.  For every duplicate-free page-name list (the keys of the page
map) and every sort comparator, the sidebar ordering is a permutation of
the input names: no page is dropped and no page is duplicated, whichever
names match `home` or `architecture` case-insensitively. -/
theorem sidebar_permutation (r : Str → Str → Prop) [DecidableRel r]
    (names : List Str) (hnd : names.Nodup) :
    (orderPagesForSidebar r names).Perm names := by
  cases hh : names.find? (fun n => jsToLower n == chars "home") with
  | none =>
    cases ha : names.find? (fun n => jsToLower n == chars "architecture") with
    | none =>
      simp [orderPagesForSidebar, hh, ha]
      exact List.perm_insertionSort r names
    | some av =>
      have hmemA : av ∈ names := List.mem_of_find?_eq_some ha
      simp [orderPagesForSidebar, hh, ha]
      rw [show names.filter (fun n => !(n == av)) = names.erase av from
        (hnd.erase_eq_filter av).symm]
      exact (((List.perm_insertionSort r _).cons av).trans
        (perm_cons_erase_beq hmemA).symm)
  | some hv =>
    have hmemH : hv ∈ names := List.mem_of_find?_eq_some hh
    cases ha : names.find? (fun n => jsToLower n == chars "architecture") with
    | none =>
      simp [orderPagesForSidebar, hh, ha]
      rw [show names.filter (fun n => !(n == hv)) = names.erase hv from
        (hnd.erase_eq_filter hv).symm]
      exact (((List.perm_insertionSort r _).cons hv).trans
        (perm_cons_erase_beq hmemH).symm)
    | some av =>
      have hmemA : av ∈ names := List.mem_of_find?_eq_some ha
      have hne : av ≠ hv := by
        have p1 := List.find?_some hh
        have p2 := List.find?_some ha
        intro he
        rw [he] at p2
        exact absurd ((eq_of_beq p1).symm.trans (eq_of_beq p2)) (by decide)
      have hmemA' : av ∈ names.erase hv := (List.mem_erase_of_ne hne).mpr hmemA
      have e1 : names.erase hv = names.filter (fun n => n != hv) :=
        hnd.erase_eq_filter hv
      have e3 : (names.erase hv).erase av =
          names.filter (fun n => (n != av) && (n != hv)) := by
        rw [(hnd.erase hv).erase_eq_filter av, e1, List.filter_filter]
      have hswap :
          names.filter (fun n => !(n == hv) && !(n == av)) =
            names.filter (fun n => (n != av) && (n != hv)) := by
        apply List.filter_congr
        intro n _
        simp [bne, Bool.and_comm]
      simp [orderPagesForSidebar, hh, ha]
      rw [hswap, ← e3]
      have p1 : names.Perm (hv :: names.erase hv) := perm_cons_erase_beq hmemH
      have p2 : (names.erase hv).Perm (av :: (names.erase hv).erase av) :=
        perm_cons_erase_beq hmemA'
      exact ((((List.perm_insertionSort r _).cons av).cons hv).trans
        ((p2.symm).cons hv)).trans p1.symm

/-- Witness for C10 at the concrete scenario page set. -/
theorem sidebar_permutation_witness :
    (orderPagesForSidebar trivialRel
        [chars "Zebra", chars "Home", chars "Architecture"]).Perm
      [chars "Zebra", chars "Home", chars "Architecture"] :=
  sidebar_permutation trivialRel
    [chars "Zebra", chars "Home", chars "Architecture"] (by decide)
